import Mathlib

/-!
Verification of the Tokushima course-roadmap tool (TypeScript sources under
`src/`): a shallow embedding of the response interpreter
(`GeminiService.parseJSONResponse`), the roadmap flowchart layout
(`RoadmapFlowchart` in `tokushima-roadmap-tool.tsx`), the edge rendering
(`renderConnections`), the catalog filter
(`DataService.getSubjectsByCareerRelevance`), and the per-subject enrichment
loop (`GeminiService.enrichSubjectsWithCareerRelevance`), together with
theorems settling the specification claims about them.

Modelling conventions:
* JavaScript strings are modelled as Lean `String`/`List Char`; all inputs
  relevant to the claims are ASCII.
* JavaScript numbers are modelled as exact rationals `ℚ` (the data carries
  small decimal literals; float rounding plays no role in any claim).
* `JSON.parse` is modelled by an executable recursive-descent parser for the
  JSON grammar (fuel-based so that it is structurally recursive and
  kernel-evaluable).  Duplicate object keys keep the last occurrence, as in
  JavaScript.  The only deviation: `\uXXXX` escapes denoting unpaired UTF-16
  surrogates are rejected (Lean strings cannot hold lone surrogates); no
  claim involves them.
-/

/-- JSON values, as produced by `JSON.parse`. -/
inductive Json where
  | null : Json
  | bool : Bool → Json
  | num : ℚ → Json
  | str : String → Json
  | arr : List Json → Json
  | obj : List (String × Json) → Json

/-- Whitespace accepted by `JSON.parse` (space, tab, line feed, carriage return). -/
def jsonWs (c : Char) : Bool :=
  c = ' ' || c = '\t' || c = '\n' || c = '\r'

/-- Drops leading JSON whitespace. -/
def skipWs : List Char → List Char
  | [] => []
  | c :: cs => if jsonWs c then skipWs cs else c :: cs

/-- Value of a hexadecimal digit. -/
def hexVal (c : Char) : Option Nat :=
  if '0' ≤ c ∧ c ≤ '9' then some (c.toNat - '0'.toNat)
  else if 'a' ≤ c ∧ c ≤ 'f' then some (c.toNat - 'a'.toNat + 10)
  else if 'A' ≤ c ∧ c ≤ 'F' then some (c.toNat - 'A'.toNat + 10)
  else none

/-- Combines four hex digits into a code unit. -/
def hex4 (a b c d : Char) : Option Nat := do
  let x ← hexVal a
  let y ← hexVal b
  let z ← hexVal c
  let w ← hexVal d
  pure (((x * 16 + y) * 16 + z) * 16 + w)

/-- Reads the contents of a JSON string literal, after the opening quote.
Returns the decoded characters and the remaining input after the closing
quote.  Raw control characters are rejected, escape sequences are decoded,
and surrogate pairs written as two `\u` escapes are combined. -/
def strChars : List Char → Option (List Char × List Char)
  | [] => none
  | c :: rest =>
    if c = '\"' then some ([], rest)
    else if c = '\\' then
      match rest with
      | 'u' :: h1 :: h2 :: h3 :: h4 :: rest2 =>
        match hex4 h1 h2 h3 h4 with
        | none => none
        | some n =>
          if 0xD800 ≤ n ∧ n ≤ 0xDBFF then
            match rest2 with
            | '\\' :: 'u' :: g1 :: g2 :: g3 :: g4 :: rest3 =>
              match hex4 g1 g2 g3 g4 with
              | none => none
              | some m =>
                if 0xDC00 ≤ m ∧ m ≤ 0xDFFF then
                  match strChars rest3 with
                  | some (s, r) =>
                    some (Char.ofNat (0x10000 + (n - 0xD800) * 0x400 + (m - 0xDC00)) :: s, r)
                  | none => none
                else none
            | _ => none
          else if 0xDC00 ≤ n ∧ n ≤ 0xDFFF then none
          else
            match strChars rest2 with
            | some (s, r) => some (Char.ofNat n :: s, r)
            | none => none
      | e :: rest2 =>
        let dec : Option Char :=
          if e = '\"' then some '\"'
          else if e = '\\' then some '\\'
          else if e = '/' then some '/'
          else if e = 'b' then some (Char.ofNat 8)
          else if e = 'f' then some (Char.ofNat 12)
          else if e = 'n' then some '\n'
          else if e = 'r' then some '\r'
          else if e = 't' then some '\t'
          else none
        match dec with
        | none => none
        | some d =>
          match strChars rest2 with
          | some (s, r) => some (d :: s, r)
          | none => none
      | [] => none
    else if c.toNat < 0x20 then none
    else
      match strChars rest with
      | some (s, r) => some (c :: s, r)
      | none => none

/-- Takes the maximal leading run of decimal digits. -/
def takeDigits : List Char → List Char × List Char
  | [] => ([], [])
  | c :: rest =>
    if c.isDigit then
      let (d, r) := takeDigits rest
      (c :: d, r)
    else ([], c :: rest)

/-- Numeric value of a digit run. -/
def digitsToNat (acc : Nat) : List Char → Nat
  | [] => acc
  | c :: rest => digitsToNat (acc * 10 + (c.toNat - '0'.toNat)) rest

/-- Value `mant * 10 ^ e` as a rational number (constructed through `mkRat`
so that concrete numbers evaluate by kernel reduction). -/
def ratOfScaled (mant : Int) (e : Int) : ℚ :=
  if 0 ≤ e then mkRat (mant * ((10 : Int) ^ e.toNat)) 1
  else mkRat mant ((10 : Nat) ^ (-e).toNat)

/-- Finishes a JSON number after the integer and fraction digits: parses the
optional exponent and assembles the value from the signed mantissa digits
`mantDigits` scaled down by `fracLen` decimal places. -/
def parseNumExp (neg : Bool) (mantDigits : List Char) (fracLen : Nat)
    (cs : List Char) : Option (ℚ × List Char) :=
  let smant : Int :=
    if neg then -(digitsToNat 0 mantDigits : Int) else (digitsToNat 0 mantDigits : Int)
  match cs with
  | e :: r =>
    if e = 'e' ∨ e = 'E' then
      let (esign, r') :
          Bool × List Char :=
        match r with
        | '-' :: r'' => (true, r'')
        | '+' :: r'' => (false, r'')
        | _ => (false, r)
      let (d, r'') := takeDigits r'
      if d.isEmpty then none
      else
        let ev : Int :=
          if esign then -(digitsToNat 0 d : Int) else (digitsToNat 0 d : Int)
        some (ratOfScaled smant (ev - fracLen), r'')
    else some (ratOfScaled smant (0 - (fracLen : Int)), e :: r)
  | [] => some (ratOfScaled smant (0 - (fracLen : Int)), [])

/-- Parses a JSON number per the JSON grammar: `-? int frac? exp?`, where a
leading `0` may not be followed by further integer digits. -/
def parseNum (cs : List Char) : Option (ℚ × List Char) :=
  let (neg, cs1) :=
    match cs with
    | '-' :: rest => (true, rest)
    | _ => (false, cs)
  match cs1 with
  | [] => none
  | c :: rest =>
    if ¬ c.isDigit then none
    else
      let (ip, r1) :
          List Char × List Char :=
        if c = '0' then (['0'], rest) else takeDigits (c :: rest)
      match r1 with
      | '.' :: r =>
        let (fd, r') := takeDigits r
        if fd.isEmpty then none
        else parseNumExp neg (ip ++ fd) fd.length r'
      | _ => parseNumExp neg ip 0 r1

/-- Parser modes: a single JSON value, the elements of an array (just after
`[`, or after at least one element), and the fields of an object (just after
the opening brace, or after at least one field). -/
inductive PMode where
  | value : PMode
  | elems0 : PMode
  | elems1 : PMode
  | fields0 : PMode
  | fields1 : PMode

/-- Recursive-descent JSON parser, structurally recursive on a fuel bound. -/
def parseF : Nat → PMode → List Char → Option (Json × List Char)
  | 0, _, _ => none
  | Nat.succ fuel, PMode.value, cs =>
    match skipWs cs with
    | [] => none
    | c :: rest =>
      if c = '\x7b' then parseF fuel PMode.fields0 rest
      else if c = '[' then parseF fuel PMode.elems0 rest
      else if c = '\"' then
        match strChars rest with
        | some (s, r) => some (Json.str (String.mk s), r)
        | none => none
      else if c = 't' then
        match rest with
        | 'r' :: 'u' :: 'e' :: r => some (Json.bool true, r)
        | _ => none
      else if c = 'f' then
        match rest with
        | 'a' :: 'l' :: 's' :: 'e' :: r => some (Json.bool false, r)
        | _ => none
      else if c = 'n' then
        match rest with
        | 'u' :: 'l' :: 'l' :: r => some (Json.null, r)
        | _ => none
      else if c = '-' ∨ c.isDigit then
        match parseNum (c :: rest) with
        | some (q, r) => some (Json.num q, r)
        | none => none
      else none
  | Nat.succ fuel, PMode.elems0, cs =>
    match skipWs cs with
    | ']' :: rest => some (Json.arr [], rest)
    | cs' =>
      match parseF fuel PMode.value cs' with
      | some (v, r) =>
        match parseF fuel PMode.elems1 r with
        | some (Json.arr tl, r2) => some (Json.arr (v :: tl), r2)
        | _ => none
      | none => none
  | Nat.succ fuel, PMode.elems1, cs =>
    match skipWs cs with
    | ']' :: rest => some (Json.arr [], rest)
    | ',' :: rest =>
      match parseF fuel PMode.value rest with
      | some (v, r) =>
        match parseF fuel PMode.elems1 r with
        | some (Json.arr tl, r2) => some (Json.arr (v :: tl), r2)
        | _ => none
      | none => none
    | _ => none
  | Nat.succ fuel, PMode.fields0, cs =>
    match skipWs cs with
    | '\x7d' :: rest => some (Json.obj [], rest)
    | '\"' :: rest =>
      match strChars rest with
      | some (k, r1) =>
        match skipWs r1 with
        | ':' :: r2 =>
          match parseF fuel PMode.value r2 with
          | some (v, r3) =>
            match parseF fuel PMode.fields1 r3 with
            | some (Json.obj tl, r4) => some (Json.obj ((String.mk k, v) :: tl), r4)
            | _ => none
          | none => none
        | _ => none
      | none => none
    | _ => none
  | Nat.succ fuel, PMode.fields1, cs =>
    match skipWs cs with
    | '\x7d' :: rest => some (Json.obj [], rest)
    | ',' :: rest =>
      match skipWs rest with
      | '\"' :: rest2 =>
        match strChars rest2 with
        | some (k, r1) =>
          match skipWs r1 with
          | ':' :: r2 =>
            match parseF fuel PMode.value r2 with
            | some (v, r3) =>
              match parseF fuel PMode.fields1 r3 with
              | some (Json.obj tl, r4) => some (Json.obj ((String.mk k, v) :: tl), r4)
              | _ => none
            | none => none
          | _ => none
        | none => none
      | _ => none
    | _ => none

/-- Model of `JSON.parse` on a character list: parse one value and require
only whitespace to remain. -/
def jsonParseL (cs : List Char) : Option Json :=
  match parseF (2 * cs.length + 8) PMode.value cs with
  | some (j, rest) => if (skipWs rest).isEmpty then some j else none
  | none => none

/-- Model of `JSON.parse` on a string. -/
def jsonParse (s : String) : Option Json :=
  jsonParseL s.data

/-!
The response interpreter `GeminiService.parseJSONResponse`
(`src/src/services/geminiService.ts`, lines 60-89):

```
try { return JSON.parse(text); } catch {
  const jsonMatch = text.match(/```(?:json)?\s*(\{[\s\S]*?\})\s*```/);
  if (jsonMatch) { try { return JSON.parse(jsonMatch[1]); }
                   catch { throw new Error('Invalid JSON response from AI'); } }
  const jsonObjectMatch = text.match(/\{[\s\S]*\}/);
  if (jsonObjectMatch) { try { return JSON.parse(jsonObjectMatch[0]); }
                         catch { throw new Error('Invalid JSON response from AI'); } }
  throw new Error('No valid JSON found in response');
}
```

The two regex searches are modelled as executable functions.  For the fenced
regex, at a given start the backtracking is deterministic: the optional
literal `json` can only succeed by being consumed when present (otherwise
`\s*` would have to match `j`), `\s*` must consume the whole whitespace run
(a brace or backtick is not whitespace), and the lazy `[\s\S]*?` stops at the
first `}` whose following whitespace run is followed by three backticks.
`text.match` without the global flag returns the leftmost match, modelled by
trying every start position left to right.  `\s` is modelled on the
characters that occur in ASCII/Latin-1 text (space, tab, line feed, carriage
return, vertical tab, form feed, no-break space).
-/

/-- Characters matched by the regex class `\s`, restricted to Latin-1. -/
def isJsWhitespace (c : Char) : Bool :=
  c = ' ' || c = '\t' || c = '\n' || c = '\r' ||
  c = '\u000b' || c = '\u000c' || c = '\u00A0'

/-- Lazy search for the group terminator of the fenced-block regex: returns
the shortest prefix ending at a `}` that is followed by optional whitespace
and three backticks.  The returned characters include the closing `}`. -/
def findFencedClose : List Char → Option (List Char)
  | [] => none
  | c :: rest =>
    if c = '\x7d' ∧ ((rest.dropWhile isJsWhitespace).take 3 = ['`', '`', '`']) then
      some [c]
    else
      match findFencedClose rest with
      | some body => some (c :: body)
      | none => none

/-- Attempts the fenced-block regex ```` ```(?:json)?\s*(\{[\s\S]*?\})\s*``` ````
anchored at the start of the input; on success returns the captured group. -/
def fencedAt (cs : List Char) : Option (List Char) :=
  match cs with
  | '`' :: '`' :: '`' :: rest =>
    let rest2 :=
      match rest with
      | 'j' :: 's' :: 'o' :: 'n' :: r => r
      | _ => rest
    match rest2.dropWhile isJsWhitespace with
    | '\x7b' :: inner =>
      match findFencedClose inner with
      | some body => some ('\x7b' :: body)
      | none => none
    | _ => none
  | _ => none

/-- Leftmost match of the fenced-block regex: the captured `{...}` group of
the first position where the pattern matches. -/
def fencedMatch : List Char → Option (List Char)
  | [] => none
  | c :: rest =>
    match fencedAt (c :: rest) with
    | some g => some g
    | none => fencedMatch rest

/-- Longest prefix of the input ending at its last `}`, if any. -/
def untilLastBrace : List Char → Option (List Char)
  | [] => none
  | c :: rest =>
    match untilLastBrace rest with
    | some body => some (c :: body)
    | none => if c = '\x7d' then some [c] else none

/-- Leftmost match of the greedy regex `\{[\s\S]*\}`: the substring running
from the first `{` of the text to its last `}` (when the former precedes the
latter). -/
def objectMatch (cs : List Char) : Option (List Char) :=
  match cs.dropWhile (fun c => ¬ c = '\x7b') with
  | '\x7b' :: rest =>
    match untilLastBrace rest with
    | some body => some ('\x7b' :: body)
    | none => none
  | _ => none

/-- Outcomes of `parseJSONResponse`: the two thrown errors. -/
inductive AiParseError where
  /-- Thrown as `'Invalid JSON response from AI'`. -/
  | invalidJson : AiParseError
  /-- Thrown as `'No valid JSON found in response'`. -/
  | noJsonFound : AiParseError
deriving DecidableEq

/-- Model of `GeminiService.parseJSONResponse`: whole-text parse, then the
fenced-block group, then the greedy `{...}` span; a found-but-unparsable
candidate in either fallback throws `invalidJson`. -/
def parseJSONResponse (text : List Char) : Except AiParseError Json :=
  match jsonParseL text with
  | some j => Except.ok j
  | none =>
    match fencedMatch text with
    | some g =>
      match jsonParseL g with
      | some j => Except.ok j
      | none => Except.error AiParseError.invalidJson
    | none =>
      match objectMatch text with
      | some g =>
        match jsonParseL g with
        | some j => Except.ok j
        | none => Except.error AiParseError.invalidJson
      | none => Except.error AiParseError.noJsonFound

/-!
Data model of `geminiService.ts`: `Subject`, `RoadmapNode`, and
`GeneratedRoadmap`.  JavaScript numbers are `ℚ`; `year` and `semester` are
natural numbers (the catalog uses years 1-4 and semesters 1-2, and the
layout's string keys `` `${year}-${semester}` `` round-trip through
`split('-')`/`Number` exactly for natural numbers, so the grouping key is
modelled as the pair itself).  The optional `career_relevance` and
`career_relevance_reason` records are modelled as association lists, with
absence of the whole record represented by the empty record: every claim
below concerns per-key presence, for which the two are indistinguishable.
-/

/-- Node type tags `'foundation' | 'core' | 'specialized' | 'elective'`. -/
inductive NodeType where
  | foundation : NodeType
  | core : NodeType
  | specialized : NodeType
  | elective : NodeType
deriving DecidableEq

/-- The `RoadmapNode` interface. -/
structure RoadmapNode where
  id : String
  name : String
  x : ℚ
  y : ℚ
  type : NodeType
  completed : Bool
  connects : List String
  credits : ℚ
  year : Nat
  semester : Nat
  relevance_score : ℚ
deriving DecidableEq

/-- The `GeneratedRoadmap` interface. -/
structure GeneratedRoadmap where
  title : String
  description : String
  occupation : String
  nodes : List RoadmapNode
  total_credits : ℚ
  reasoning : String
deriving DecidableEq

/-- JSON encoding of a node type tag. -/
def nodeTypeToJson : NodeType → Json
  | NodeType.foundation => Json.str "foundation"
  | NodeType.core => Json.str "core"
  | NodeType.specialized => Json.str "specialized"
  | NodeType.elective => Json.str "elective"

/-- JSON encoding of a `RoadmapNode`, following the schema demanded by the
roadmap prompt. -/
def nodeToJson (n : RoadmapNode) : Json :=
  Json.obj
    [("id", Json.str n.id), ("name", Json.str n.name),
     ("x", Json.num n.x), ("y", Json.num n.y),
     ("type", nodeTypeToJson n.type), ("completed", Json.bool n.completed),
     ("connects", Json.arr (n.connects.map Json.str)),
     ("credits", Json.num n.credits), ("year", Json.num n.year),
     ("semester", Json.num n.semester),
     ("relevance_score", Json.num n.relevance_score)]

/-- JSON encoding of a `GeneratedRoadmap`, following the schema demanded by
the roadmap prompt. -/
def roadmapToJson (r : GeneratedRoadmap) : Json :=
  Json.obj
    [("title", Json.str r.title), ("description", Json.str r.description),
     ("occupation", Json.str r.occupation),
     ("nodes", Json.arr (r.nodes.map nodeToJson)),
     ("total_credits", Json.num r.total_credits),
     ("reasoning", Json.str r.reasoning)]

/-!
Layout engine of `RoadmapFlowchart` (`src/src/tokushima-roadmap-tool.tsx`,
lines 13-50).  `Array.prototype.sort` with a consistent comparator is
required by the ECMAScript specification to produce the unique stable
sorted permutation, which is modelled by `List.insertionSort` (stable).
`localeCompare` on the ASCII subject names is modelled as code-point
comparison, Lean's `String` order.
-/

/-- Code-point comparison `nameLeB a b = true` when string `a` compares at
or before `b`; this models `localeCompare(…) <= 0` on the ASCII subject
names. -/
def nameLeB : List Char → List Char → Bool
  | [], _ => true
  | _ :: _, [] => false
  | c :: as, d :: bs =>
    if c.toNat < d.toNat then true
    else if d.toNat < c.toNat then false
    else nameLeB as bs

/-- Order of the node comparator: by `year`, then `semester`, then `name`
(`nodeLe a b` states that the comparator puts `a` not after `b`). -/
def nodeLe (a b : RoadmapNode) : Prop :=
  a.year < b.year ∨
    (a.year = b.year ∧
      (a.semester < b.semester ∨
        (a.semester = b.semester ∧ nameLeB a.name.data b.name.data = true)))

instance : DecidableRel nodeLe := fun a b =>
  inferInstanceAs (Decidable (a.year < b.year ∨
    (a.year = b.year ∧
      (a.semester < b.semester ∨
        (a.semester = b.semester ∧ nameLeB a.name.data b.name.data = true)))))

/-- Model of `const sortedNodes = [...(roadmap.nodes || [])].sort(...)`. -/
def sortedNodes (nodes : List RoadmapNode) : List RoadmapNode :=
  nodes.insertionSort nodeLe

/-- Grouping key `` `${node.year}-${node.semester}` ``, modelled as the pair. -/
def nodeKey (n : RoadmapNode) : Nat × Nat :=
  (n.year, n.semester)

/-- Entry of `groupMap` for one key: the nodes pushed for that key, in
`sortedNodes` order. -/
def groupOf (nodes : List RoadmapNode) (p : Nat × Nat) : List RoadmapNode :=
  (sortedNodes nodes).filter (fun n => decide (nodeKey n = p))

/-- Order of the `(year, semester)` pair comparator `a[0] - b[0] || a[1] - b[1]`. -/
def pairLe (p q : Nat × Nat) : Prop :=
  p.1 < q.1 ∨ (p.1 = q.1 ∧ p.2 ≤ q.2)

/-- Strictly-earlier order on `(year, semester)` pairs. -/
def pairLt (p q : Nat × Nat) : Prop :=
  p.1 < q.1 ∨ (p.1 = q.1 ∧ p.2 < q.2)

instance : DecidableRel pairLe := fun p q =>
  inferInstanceAs (Decidable (p.1 < q.1 ∨ (p.1 = q.1 ∧ p.2 ≤ q.2)))

instance : DecidableRel pairLt := fun p q =>
  inferInstanceAs (Decidable (p.1 < q.1 ∨ (p.1 = q.1 ∧ p.2 < q.2)))

/-- Model of `allYearSemPairs`: the distinct keys of the sorted nodes,
sorted ascending.  (`Array.from(new Set(...))` keeps first occurrences while
`List.dedup` keeps last ones; the subsequent sort by the antisymmetric pair
order makes the two agree.) -/
def allYearSemPairs (nodes : List RoadmapNode) : List (Nat × Nat) :=
  (((sortedNodes nodes).map nodeKey).dedup).insertionSort pairLe

/-- Position writes performed by the layout loops, in execution order: for
each `(year, semester)` row (ascending rank `rowIdx`) and each node of the
row's group (ascending column `colIdx`), the write of
`x = 100 + colIdx * 180, y = 100 + rowIdx * 120` to `nodePositions[node.id]`. -/
def layoutWrites (nodes : List RoadmapNode) : List (String × Nat × Nat) :=
  (allYearSemPairs nodes).enum.flatMap (fun rp =>
    (groupOf nodes rp.2).enum.map (fun cn =>
      (cn.2.id, (100 + cn.1 * 180, 100 + rp.1 * 120))))

/-- The final `nodePositions` object: a later write to the same id
overwrites an earlier one. -/
def nodePositions (nodes : List RoadmapNode) : String → Option (Nat × Nat) :=
  (layoutWrites nodes).foldl
    (fun f kv => fun s => if s = kv.1 then some kv.2 else f s) (fun _ => none)

/-- Coordinates read back from `nodePositions[id]` (every node occurring in
the roadmap has a written position, so the default is never reached for the
ids the rendering looks up). -/
def posOf (nodes : List RoadmapNode) (id : String) : Nat × Nat :=
  (nodePositions nodes id).getD (0, 0)

/-- A rendered `<line>` element of the connection layer. -/
structure RenderedEdge where
  source : String
  target : String
  x1 : Nat
  y1 : Nat
  x2 : Nat
  y2 : Nat
deriving DecidableEq

/-- Model of `renderConnections` (tsx lines 63-88): for each sorted node and
each target id in its `connects`, either `null` (target id not found among
the current nodes) or a line element anchored at `(+60, +20)` offsets from
each endpoint's position; the per-node lists are flattened one level. -/
def renderConnections (nodes : List RoadmapNode) : List (Option RenderedEdge) :=
  ((sortedNodes nodes).map (fun node =>
    node.connects.map (fun targetId =>
      match (sortedNodes nodes).find? (fun n => n.id == targetId) with
      | none => none
      | some t =>
        some ⟨node.id, t.id,
          (posOf nodes node.id).1 + 60, (posOf nodes node.id).2 + 20,
          (posOf nodes t.id).1 + 60, (posOf nodes t.id).2 + 20⟩))).flatten

/-- The rendered edge set: the non-null elements (React ignores `null`
children). -/
def renderedEdges (nodes : List RoadmapNode) : List RenderedEdge :=
  (renderConnections nodes).reduceOption

/-!
The generation pipeline around the interpreter:
`GeminiService.generateRoadmap` (geminiService.ts lines 91-105) wraps any
parse failure into `Error('Failed to generate roadmap')`, and
`CourseRoadmapTool.generateRoadmap` (tsx lines 263-298) validates the shape
of the parsed value — `!g || !g.nodes || !Array.isArray(g.nodes)` throws
`Error('Invalid roadmap data received from AI')` — before `setRoadmap`
moves the session to the displaying state; every thrown error instead lands
in `setError`.
-/

/-- Truthiness of a parsed JSON value as a JavaScript value. -/
def jsTruthy : Json → Bool
  | Json.null => false
  | Json.bool b => b
  | Json.num q => decide (q ≠ 0)
  | Json.str s => decide (s ≠ "")
  | Json.arr _ => true
  | Json.obj _ => true

/-- JavaScript property access `j.k` on a parsed JSON value: objects yield
their last binding for the key (`JSON.parse` keeps the last duplicate);
other values have no such property. -/
def getField (j : Json) (k : String) : Option Json :=
  match j with
  | Json.obj fs => (fs.reverse.find? (fun p => p.1 == k)).map (fun p => p.2)
  | _ => none

/-- Model of `Array.isArray` on parsed JSON values. -/
def isJsonArray : Json → Bool
  | Json.arr _ => true
  | _ => false

/-- Shape validation of tsx lines 282-284: the parsed value must be truthy
and its `nodes` property truthy and an array. -/
def roadmapShapeOk (j : Json) : Bool :=
  jsTruthy j &&
    (match getField j "nodes" with
     | some v => jsTruthy v && isJsonArray v
     | none => false)

/-- Observable outcome of one generation request. -/
inductive UiOutcome where
  /-- `setRoadmap` was called: the roadmap reaches the displaying state. -/
  | displaying : Json → UiOutcome
  /-- `setError` was called with the given message; no roadmap is shown. -/
  | errorShown : String → UiOutcome

/-- Model of the generation pipeline applied to the AI reply text: interpret
the text, then shape-check the parsed value. -/
def generateRoadmapUI (aiText : List Char) : UiOutcome :=
  match parseJSONResponse aiText with
  | Except.error _ => UiOutcome.errorShown "Failed to generate roadmap"
  | Except.ok j =>
    if roadmapShapeOk j then UiOutcome.displaying j
    else UiOutcome.errorShown "Invalid roadmap data received from AI"

/-!
Catalog store `DataService` (`src/src/services/dataService.ts`).  The
claims concern `getSubjectsByCareerRelevance` (lines 91-101), which filters
the loaded subjects by
`relevance && relevance >= threshold` — JavaScript truthiness, so an absent
score and a present score of `0` are both rejected — and sorts the kept
subjects by the comparator `relevanceB - relevanceA` (missing scores read as
`0` through `|| 0`), i.e. descending by score, stably.  The catalog list is
passed explicitly (in the source it is the state loaded from
`/syllabus.json`).
-/

/-- The `Subject` interface. -/
structure Subject where
  id : String
  code : String
  name : String
  credits : ℚ
  year : Nat
  semester : Nat
  department : String
  syllabus : List String
  description : String
  prerequisites : List String
  keywords : List String
  learning_outcomes : List String
  career_relevance : List (String × ℚ)
  career_relevance_reason : List (String × String)
deriving DecidableEq

/-- ASCII lowering of one character, as `toLowerCase` acts on the ASCII
occupation strings. -/
def lowerChar (c : Char) : Char :=
  if 'A' ≤ c ∧ c ≤ 'Z' then Char.ofNat (c.toNat + 32) else c

/-- Model of `occupation.toLowerCase()` on ASCII strings. -/
def toLowerAscii (s : String) : String :=
  String.mk (s.data.map lowerChar)

/-- Record lookup `subject.career_relevance[key]`. -/
def relevanceOf (s : Subject) (k : String) : Option ℚ :=
  (s.career_relevance.find? (fun p => p.1 == k)).map (fun p => p.2)

/-- Filter predicate `relevance && relevance >= threshold` under JavaScript
truthiness. -/
def keepByRelevance (occupation : String) (threshold : ℚ) (s : Subject) : Bool :=
  match relevanceOf s (toLowerAscii occupation) with
  | none => false
  | some r => if r = 0 then false else decide (threshold ≤ r)

/-- Order of the sort comparator
`(b.career_relevance[k] || 0) - (a.career_relevance[k] || 0)`:
descending by score. -/
def relDesc (k : String) (a b : Subject) : Prop :=
  (relevanceOf b k).getD 0 ≤ (relevanceOf a k).getD 0

instance (k : String) : DecidableRel (relDesc k) := fun a b =>
  inferInstanceAs (Decidable ((relevanceOf b k).getD 0 ≤ (relevanceOf a k).getD 0))

/-- Model of `DataService.getSubjectsByCareerRelevance`. -/
def getSubjectsByCareerRelevance (subjects : List Subject) (occupation : String)
    (threshold : ℚ) : List Subject :=
  (subjects.filter (keepByRelevance occupation threshold)).insertionSort
    (relDesc (toLowerAscii occupation))

/-!
Per-subject enrichment `GeminiService.enrichSubjectsWithCareerRelevance`
(geminiService.ts lines 111-130).  The sequential `for ... of` loop with a
`try/catch` around each iteration is modelled by structural recursion; the
AI round trip (`generateContent` + `response.text()`) is modelled by an
oracle `respond` mapping each subject to its reply text or to a transport
failure.  The unchecked assignment of `parsed.career_relevance` (typed
`Record<string, number>` but never validated) is modelled by decoding the
numeric fields of the parsed value; the claims below do not depend on the
decoded values.
-/

/-- Decode of the untyped `parsed.career_relevance` property. -/
def decodeScores : Option Json → List (String × ℚ)
  | some (Json.obj fs) =>
    fs.filterMap (fun p =>
      match p.2 with
      | Json.num q => some (p.1, q)
      | _ => none)
  | _ => []

/-- Decode of the untyped `parsed.career_relevance_reason` property. -/
def decodeReasons : Option Json → List (String × String)
  | some (Json.obj fs) =>
    fs.filterMap (fun p =>
      match p.2 with
      | Json.str t => some (p.1, t)
      | _ => none)
  | _ => []

/-- One loop iteration: on a transport failure or a parse failure the
`catch` pushes `{...subject}` (an unmodified copy); on success the spread
`{...subject, career_relevance, career_relevance_reason}` replaces exactly
those two fields. -/
def enrichOne (respond : Subject → Except Unit String) (s : Subject) : Subject :=
  match respond s with
  | Except.error _ => s
  | Except.ok text =>
    match parseJSONResponse text.data with
    | Except.error _ => s
    | Except.ok parsed =>
      { s with
        career_relevance := decodeScores (getField parsed "career_relevance"),
        career_relevance_reason :=
          decodeReasons (getField parsed "career_relevance_reason") }

/-- Whether the iteration for `s` takes the `catch` branch. -/
def enrichFails (respond : Subject → Except Unit String) (s : Subject) : Prop :=
  match respond s with
  | Except.error _ => True
  | Except.ok text =>
    match parseJSONResponse text.data with
    | Except.error _ => True
    | Except.ok _ => False

/-- Model of `enrichSubjectsWithCareerRelevance`: the loop pushes one output
subject per input subject, in order. -/
def enrichSubjectsWithCareerRelevance (respond : Subject → Except Unit String) :
    List Subject → List Subject
  | [] => []
  | s :: rest => enrichOne respond s :: enrichSubjectsWithCareerRelevance respond rest

/-- Copy of a subject with the two enrichment fields blanked; two subjects
agree on every field other than `career_relevance` and
`career_relevance_reason` exactly when their erasures are equal. -/
def eraseEnrichment (s : Subject) : Subject :=
  { s with career_relevance := [], career_relevance_reason := [] }

/-- Projection of a node to the fields the layout reads: id, name, year,
semester. -/
def projNode (n : RoadmapNode) : String × String × Nat × Nat :=
  (n.id, n.name, n.year, n.semester)

/-- The node comparator order transported along `projNode`. -/
def projLe (a b : String × String × Nat × Nat) : Prop :=
  a.2.2.1 < b.2.2.1 ∨
    (a.2.2.1 = b.2.2.1 ∧
      (a.2.2.2 < b.2.2.2 ∨
        (a.2.2.2 = b.2.2.2 ∧ nameLeB a.2.1.data b.2.1.data = true)))

instance : DecidableRel projLe := fun a b =>
  inferInstanceAs (Decidable (a.2.2.1 < b.2.2.1 ∨
    (a.2.2.1 = b.2.2.1 ∧
      (a.2.2.2 < b.2.2.2 ∨
        (a.2.2.2 = b.2.2.2 ∧ nameLeB a.2.1.data b.2.1.data = true)))))

/-- The grouping key read off a projected node. -/
def projKey (a : String × String × Nat × Nat) : Nat × Nat :=
  (a.2.2.1, a.2.2.2)

/-- The layout writes recomputed from the projections of the sorted nodes
alone; `layoutWrites` factors through this, which shows the positions depend
only on each node's id, name, year and semester. -/
def writesFromProj (ps : List (String × String × Nat × Nat)) :
    List (String × Nat × Nat) :=
  ((ps.map projKey).dedup.insertionSort pairLe).enum.flatMap (fun rp =>
    ((ps.filter (fun q => decide (projKey q = rp.2))).enum.map (fun cq =>
      (cq.2.1, (100 + cq.1 * 180, 100 + rp.1 * 120)))))

/-- The sort key triple of the node comparator: year, semester, name. -/
def sortTriple (n : RoadmapNode) : Nat × Nat × String :=
  (n.year, n.semester, n.name)

/-- Rank of an element in a list: the index of its first occurrence. -/
def rankIn {α : Type} [DecidableEq α] (l : List α) (a : α) : Nat :=
  l.indexOf a

/-!
Concrete instances used by the witness and counterexample theorems.
-/

/-- Counterexample text for the interpreter ordering claim: the whole text is
not JSON, the fenced block regex captures the unparsable group `{x}`, and the
greedy `{...}` span (equally, the first balanced span) is valid JSON. -/
def c1CexText : String := "oops \x7b\"a\": \"```\x7bx\x7d```\"\x7d"

/-- The first balanced `{...}` span of `c1CexText` (also the substring from
its first `{` to its last `}`). -/
def c1CexSpan : String := "\x7b\"a\": \"```\x7bx\x7d```\"\x7d"

/-- The JSON value of `c1CexSpan`. -/
def c1CexJson : Json := Json.obj [("a", Json.str "```\x7bx\x7d```")]

/-- Witness text whose only JSON is found by the third strategy. -/
def c1WitnessText : String := "hello \x7b\"flag\":true\x7d bye"

/-- The JSON value inside `c1WitnessText`. -/
def c1WitnessJson : Json := Json.obj [("flag", Json.bool true)]

/-- Node named `B` in year 1 semester 1. -/
def nodeY1B : RoadmapNode :=
  ⟨"a", "B", mkRat 0 1, mkRat 0 1, NodeType.core, false, [], mkRat 2 1, 1, 1, mkRat 1 1⟩

/-- Node named `A` in year 1 semester 1. -/
def nodeY1A : RoadmapNode :=
  ⟨"b", "A", mkRat 0 1, mkRat 0 1, NodeType.core, false, [], mkRat 2 1, 1, 1, mkRat 1 1⟩

/-- Node named `C` in year 2 semester 1. -/
def nodeY2C : RoadmapNode :=
  ⟨"c", "C", mkRat 0 1, mkRat 0 1, NodeType.core, false, [], mkRat 2 1, 2, 1, mkRat 1 1⟩

/-- Roadmap spanning two `(year, semester)` pairs with distinct ids. -/
def c2WitnessNodes : List RoadmapNode := [nodeY1B, nodeY1A, nodeY2C]

/-- First of two nodes sharing the id `x` (year 1). -/
def c2CexNode1 : RoadmapNode :=
  ⟨"x", "a", mkRat 0 1, mkRat 0 1, NodeType.core, false, [], mkRat 2 1, 1, 1, mkRat 1 1⟩

/-- Second of two nodes sharing the id `x` (year 2). -/
def c2CexNode2 : RoadmapNode :=
  ⟨"x", "b", mkRat 0 1, mkRat 0 1, NodeType.core, false, [], mkRat 2 1, 2, 1, mkRat 1 1⟩

/-- Roadmap with a duplicated node id across two `(year, semester)` pairs. -/
def c2CexNodes : List RoadmapNode := [c2CexNode1, c2CexNode2]

/-- Node with id `a` among two nodes tying on (year, semester, name). -/
def c6NodeA : RoadmapNode :=
  ⟨"a", "N", mkRat 0 1, mkRat 0 1, NodeType.core, false, [], mkRat 2 1, 1, 1, mkRat 1 1⟩

/-- Node with id `b` among two nodes tying on (year, semester, name). -/
def c6NodeB : RoadmapNode :=
  ⟨"b", "N", mkRat 0 1, mkRat 0 1, NodeType.core, false, [], mkRat 2 1, 1, 1, mkRat 1 1⟩

/-- Copy of `c6NodeA` with different input coordinates (and completion
flag); it projects to the same id, name, year, semester. -/
def c6NodeAShifted : RoadmapNode :=
  ⟨"a", "N", mkRat 999 1, mkRat 555 1, NodeType.elective, true, ["zz"],
   mkRat 4 1, 1, 1, mkRat 1 2⟩

/-- A node of the round-trip witness roadmap. -/
def c5Node : RoadmapNode :=
  ⟨"s1", "Math", mkRat 100 1, mkRat 100 1, NodeType.foundation, false, ["s2"],
   mkRat 2 1, 1, 1, mkRat 19 20⟩

/-- Round-trip witness roadmap. -/
def c5Roadmap : GeneratedRoadmap :=
  ⟨"T", "D", "software engineer", [c5Node], mkRat 2 1, "R"⟩

/-- A JSON serialization of `c5Roadmap`. -/
def c5Text : String :=
  "\x7b\"title\":\"T\",\"description\":\"D\",\"occupation\":\"software engineer\",\"nodes\":[\x7b\"id\":\"s1\",\"name\":\"Math\",\"x\":100,\"y\":100,\"type\":\"foundation\",\"completed\":false,\"connects\":[\"s2\"],\"credits\":2,\"year\":1,\"semester\":1,\"relevance_score\":0.95\x7d],\"total_credits\":2,\"reasoning\":\"R\"\x7d"

/-- Reply whose parsed value has a non-array `nodes` field. -/
def c7Text : String := "\x7b\"nodes\": \"not-a-list\"\x7d"

/-- The parsed value of `c7Text`. -/
def c7Json : Json := Json.obj [("nodes", Json.str "not-a-list")]

/-- Node whose `connects` names an existing node and a missing one. -/
def c8Node1 : RoadmapNode :=
  ⟨"n1", "A", mkRat 0 1, mkRat 0 1, NodeType.core, false, ["ghost", "n2"],
   mkRat 2 1, 1, 1, mkRat 1 1⟩

/-- Node that is a valid `connects` target. -/
def c8Node2 : RoadmapNode :=
  ⟨"n2", "B", mkRat 0 1, mkRat 0 1, NodeType.core, false, [], mkRat 2 1, 1, 2, mkRat 1 1⟩

/-- Roadmap with one dangling and one resolvable edge. -/
def c8Nodes : List RoadmapNode := [c8Node1, c8Node2]

/-- Subject scored `1` under the underscore key `software_engineer` (as the
enrichment prompts produce). -/
def c3Subject : Subject :=
  ⟨"s1", "C1", "Math", mkRat 2 1, 1, 1, "EE", [], "", [], [], [],
   [("software_engineer", mkRat 1 1)], []⟩

/-- Subject scored `1` under the space key `software engineer`. -/
def c3SubjectHigh : Subject :=
  ⟨"s2", "C2", "Signals", mkRat 2 1, 1, 1, "EE", [], "", [], [], [],
   [("software engineer", mkRat 1 1)], []⟩

/-- Subject scored `0.8` under the space key `software engineer`. -/
def c3SubjectMid : Subject :=
  ⟨"s3", "C3", "Circuits", mkRat 2 1, 1, 1, "EE", [], "", [], [], [],
   [("software engineer", mkRat 4 5)], []⟩

/-- Subject scored `0.8` as well, later in the catalog than `c3SubjectMid`. -/
def c3SubjectMid2 : Subject :=
  ⟨"s4", "C4", "Networks", mkRat 2 1, 1, 1, "EE", [], "", [], [], [],
   [("software engineer", mkRat 4 5)], []⟩

/-- Subject scored `0.5` under the space key `software engineer`. -/
def c3SubjectLow : Subject :=
  ⟨"s5", "C5", "History", mkRat 2 1, 1, 1, "EE", [], "", [], [], [],
   [("software engineer", mkRat 1 2)], []⟩

/-- Catalog used by the filter witness. -/
def c3Catalog : List Subject :=
  [c3SubjectHigh, c3SubjectMid, c3SubjectMid2, c3SubjectLow]

/-- Subject whose score for the key `k` is present and equal to `0`. -/
def c4Subject : Subject :=
  ⟨"s6", "C6", "Art", mkRat 2 1, 1, 1, "EE", [], "", [], [], [],
   [("k", mkRat 0 1)], []⟩

/-- Subject whose score for the key `k` equals the threshold `1/2`. -/
def c4SubjectBoundary : Subject :=
  ⟨"s7", "C7", "Optics", mkRat 2 1, 1, 1, "EE", [], "", [], [], [],
   [("k", mkRat 1 2)], []⟩

/-- First subject of the enrichment witness (its round trip fails). -/
def c9SubjectA : Subject :=
  ⟨"a", "CA", "Alpha", mkRat 2 1, 1, 1, "EE", [], "", [], [], [], [], []⟩

/-- Second subject of the enrichment witness (its round trip succeeds). -/
def c9SubjectB : Subject :=
  ⟨"b", "CB", "Beta", mkRat 2 1, 1, 1, "EE", [], "", [], [], [], [], []⟩

/-- Enrichment oracle: a transport failure for subject `a`, a well-formed
reply for everything else. -/
def c9Respond : Subject → Except Unit String := fun s =>
  if s.id == "a" then Except.error ()
  else
    Except.ok
      "\x7b\"career_relevance\": \x7b\"software_engineer\": 1\x7d, \"career_relevance_reason\": \x7b\"software_engineer\": \"core topic\"\x7d\x7d"

/-!
Helper lemmas: properties of the code-point string order, of the pair
order, and generic list facts used by the layout proofs.
-/

theorem char_eq_of_toNat_eq {a b : Char} (h : a.toNat = b.toNat) : a = b := by
  have := Char.ofNat_toNat a
  rw [h, Char.ofNat_toNat] at this
  exact this.symm

theorem nameLeB_refl (a : List Char) : nameLeB a a = true := by
  induction a with
  | nil => rfl
  | cons c as ih => simp [nameLeB, ih]

theorem nameLeB_total (a b : List Char) : nameLeB a b = true ∨ nameLeB b a = true := by
  induction a generalizing b with
  | nil => exact Or.inl rfl
  | cons c as ih =>
    cases b with
    | nil => exact Or.inr rfl
    | cons d bs =>
      rcases Nat.lt_trichotomy c.toNat d.toNat with h | h | h
      · exact Or.inl (by simp [nameLeB, h])
      · rcases ih bs with h' | h'
        · exact Or.inl (by simp [nameLeB, h, h'])
        · exact Or.inr (by simp [nameLeB, h, h'])
      · exact Or.inr (by simp [nameLeB, h])

theorem nameLeB_trans {a b c : List Char} (h₁ : nameLeB a b = true)
    (h₂ : nameLeB b c = true) : nameLeB a c = true := by
  induction a generalizing b c with
  | nil => rfl
  | cons x as ih =>
    cases b with
    | nil => simp [nameLeB] at h₁
    | cons y bs =>
      cases c with
      | nil => simp [nameLeB] at h₂
      | cons z cs =>
        simp only [nameLeB] at h₁ h₂ ⊢
        rcases Nat.lt_trichotomy x.toNat y.toNat with hxy | hxy | hxy
        · rcases Nat.lt_trichotomy y.toNat z.toNat with hyz | hyz | hyz
          · simp [Nat.lt_trans hxy hyz]
          · simp [hyz ▸ hxy]
          · simp [Nat.lt_asymm hyz, hyz] at h₂
        · rcases Nat.lt_trichotomy y.toNat z.toNat with hyz | hyz | hyz
          · simp [hxy ▸ hyz]
          · have hxz : x.toNat = z.toNat := hxy.trans hyz
            rw [hxy] at h₁
            rw [hyz] at h₂
            simp only [Nat.lt_irrefl, if_false] at h₁ h₂
            rw [hxz]
            simp only [Nat.lt_irrefl, if_false]
            exact ih h₁ h₂
          · simp [Nat.lt_asymm hyz, hyz] at h₂
        · simp [Nat.lt_asymm hxy, hxy] at h₁

theorem nameLeB_antisymm {a b : List Char} (h₁ : nameLeB a b = true)
    (h₂ : nameLeB b a = true) : a = b := by
  induction a generalizing b with
  | nil =>
    cases b with
    | nil => rfl
    | cons d bs => simp [nameLeB] at h₂
  | cons c as ih =>
    cases b with
    | nil => simp [nameLeB] at h₁
    | cons d bs =>
      rcases Nat.lt_trichotomy c.toNat d.toNat with h | h | h
      · simp [nameLeB, Nat.lt_asymm h, h] at h₂
      · simp only [nameLeB, h, Nat.lt_irrefl, if_false] at h₁ h₂
        have : as = bs := ih (by simpa using h₁) (by simpa using h₂)
        rw [char_eq_of_toNat_eq h, this]
      · simp [nameLeB, Nat.lt_asymm h, h] at h₁

theorem nameLeB_false_flip {a b : List Char} (h : nameLeB a b = false) :
    nameLeB b a = true := by
  rcases nameLeB_total a b with h' | h'
  · rw [h'] at h; cases h
  · exact h'

theorem pairLe_total (p q : Nat × Nat) : pairLe p q ∨ pairLe q p := by
  unfold pairLe
  omega

theorem pairLe_trans {p q r : Nat × Nat} (h₁ : pairLe p q) (h₂ : pairLe q r) :
    pairLe p r := by
  unfold pairLe at h₁ h₂ ⊢
  omega

theorem pairLe_antisymm {p q : Nat × Nat} (h₁ : pairLe p q) (h₂ : pairLe q p) :
    p = q := by
  unfold pairLe at h₁ h₂
  rcases p with ⟨p1, p2⟩
  rcases q with ⟨q1, q2⟩
  simp only [Prod.mk.injEq]
  omega

theorem pairLt_not_le {p q : Nat × Nat} (h : pairLt p q) : ¬ pairLe q p := by
  unfold pairLt at h
  unfold pairLe
  omega

theorem pairLt_ne {p q : Nat × Nat} (h : pairLt p q) : p ≠ q := by
  intro he
  subst he
  unfold pairLt at h
  omega

theorem nodeLe_total (a b : RoadmapNode) : nodeLe a b ∨ nodeLe b a := by
  unfold nodeLe
  rcases Nat.lt_trichotomy a.year b.year with h | h | h
  · exact Or.inl (Or.inl h)
  · rcases Nat.lt_trichotomy a.semester b.semester with h' | h' | h'
    · exact Or.inl (Or.inr ⟨h, Or.inl h'⟩)
    · rcases nameLeB_total a.name.data b.name.data with h'' | h''
      · exact Or.inl (Or.inr ⟨h, Or.inr ⟨h', h''⟩⟩)
      · exact Or.inr (Or.inr ⟨h.symm, Or.inr ⟨h'.symm, h''⟩⟩)
    · exact Or.inr (Or.inr ⟨h.symm, Or.inl h'⟩)
  · exact Or.inr (Or.inl h)

theorem nodeLe_trans {a b c : RoadmapNode} (hab : nodeLe a b) (hbc : nodeLe b c) :
    nodeLe a c := by
  unfold nodeLe at hab hbc ⊢
  rcases hab with h1 | ⟨e1, h1⟩
  · rcases hbc with h2 | ⟨e2, h2⟩
    · exact Or.inl (h1.trans h2)
    · exact Or.inl (e2 ▸ h1)
  · rcases hbc with h2 | ⟨e2, h2⟩
    · exact Or.inl (e1 ▸ h2)
    · refine Or.inr ⟨e1.trans e2, ?_⟩
      rcases h1 with h1 | ⟨f1, h1⟩
      · rcases h2 with h2 | ⟨f2, h2⟩
        · exact Or.inl (h1.trans h2)
        · exact Or.inl (f2 ▸ h1)
      · rcases h2 with h2 | ⟨f2, h2⟩
        · exact Or.inl (f1 ▸ h2)
        · exact Or.inr ⟨f1.trans f2, nameLeB_trans h1 h2⟩

theorem foldlOverwrite_eq {β : Type} (ws : List (String × β))
    (f0 : String → Option β) (s : String) :
    ws.foldl (fun f kv => fun x => if x = kv.1 then some kv.2 else f x) f0 s
      = (match ws.reverse.find? (fun kv => kv.1 == s) with
         | some kv => some kv.2
         | none => f0 s) := by
  induction ws generalizing f0 with
  | nil => rfl
  | cons kv t ih =>
    rw [List.foldl_cons, ih]
    rw [List.reverse_cons, List.find?_append]
    cases hfind : t.reverse.find? (fun kv => kv.1 == s) with
    | some kv' => simp
    | none =>
      simp only [Option.none_or]
      by_cases he : kv.1 = s
      · simp [List.find?, he]
      · have : (kv.1 == s) = false := beq_false_of_ne he
        simp [List.find?, this, Ne.symm he]

theorem find?_key_unique {β : Type} {ws : List (String × β)} {kv : String × β}
    (hnd : ws.Pairwise (fun a b => a.1 ≠ b.1)) (hmem : kv ∈ ws) :
    ws.find? (fun p => p.1 == kv.1) = some kv := by
  induction ws with
  | nil => cases hmem
  | cons hd t ih =>
    rcases List.mem_cons.mp hmem with he | hm
    · subst he
      simp [List.find?]
    · have hne : hd.1 ≠ kv.1 := (List.pairwise_cons.mp hnd).1 kv hm
      have : (hd.1 == kv.1) = false := beq_false_of_ne hne
      simp only [List.find?, this]
      exact ih (List.pairwise_cons.mp hnd).2 hm

theorem eq_of_key_eq_of_pairwise {α β : Type} {key : α → β} {l : List α}
    (h : l.Pairwise (fun a b => key a ≠ key b)) {a b : α}
    (ha : a ∈ l) (hb : b ∈ l) (hk : key a = key b) : a = b := by
  induction l with
  | nil => cases ha
  | cons hd t ih =>
    rcases List.mem_cons.mp ha with he | hm
    · rcases List.mem_cons.mp hb with he' | hm'
      · exact he.trans he'.symm
      · exfalso
        exact (List.pairwise_cons.mp h).1 b hm' (he ▸ hk)
    · rcases List.mem_cons.mp hb with he' | hm'
      · exfalso
        exact (List.pairwise_cons.mp h).1 a hm (he' ▸ hk.symm)
      · exact ih (List.pairwise_cons.mp h).2 hm hm'

theorem pairwise_enumFrom {α : Type} {R : α → α → Prop} {l : List α}
    (h : l.Pairwise R) (n : Nat) :
    (l.enumFrom n).Pairwise (fun a b => R a.2 b.2) := by
  induction l generalizing n with
  | nil => exact List.Pairwise.nil
  | cons hd t ih =>
    rw [List.enumFrom_cons]
    refine List.Pairwise.cons ?_ (ih (List.pairwise_cons.mp h).2 (n + 1))
    intro x hx
    have hx2 : x.2 ∈ t := by
      rcases List.mk_mem_enumFrom_iff_le_and_getElem?_sub.mp hx with ⟨-, h2⟩
      exact List.getElem?_mem h2
    exact (List.pairwise_cons.mp h).1 x.2 hx2

theorem pairwise_enum {α : Type} {R : α → α → Prop} {l : List α}
    (h : l.Pairwise R) : l.enum.Pairwise (fun a b => R a.2 b.2) :=
  pairwise_enumFrom h 0

theorem indexOf_mem_enum {α : Type} [DecidableEq α] {l : List α} {a : α}
    (h : a ∈ l) : (rankIn l a, a) ∈ l.enum := by
  unfold rankIn
  have hi : l.indexOf a < l.length := List.indexOf_lt_length.mpr h
  have hlen : l.indexOf a < l.enum.length := by
    simpa [List.enum, List.enumFrom_length] using hi
  have : l.enum[l.indexOf a] = (l.indexOf a, a) := by
    have := List.getElem_enumFrom l 0 (l.indexOf a) hlen
    simp only [List.enum] at *
    rw [this, Nat.zero_add, List.getElem_indexOf hi]
  rw [← this]
  exact List.getElem_mem hlen

theorem indexOf_lt_of_rel {α : Type} [DecidableEq α] {l : List α}
    {R : α → α → Prop} (hp : l.Pairwise R) {a b : α}
    (ha : a ∈ l) (hb : b ∈ l) (hnab : ¬ R b a) (hne : a ≠ b) :
    rankIn l a < rankIn l b := by
  unfold rankIn
  have hia : l.indexOf a < l.length := List.indexOf_lt_length.mpr ha
  have hib : l.indexOf b < l.length := List.indexOf_lt_length.mpr hb
  rcases Nat.lt_trichotomy (l.indexOf a) (l.indexOf b) with h | h | h
  · exact h
  · exfalso
    apply hne
    have ha' : l[l.indexOf a]? = some a := by
      rw [List.getElem?_eq_getElem hia, List.getElem_indexOf hia]
    have hb' : l[l.indexOf b]? = some b := by
      rw [List.getElem?_eq_getElem hib, List.getElem_indexOf hib]
    rw [h] at ha'
    exact Option.some.inj (ha'.symm.trans hb')
  · exfalso
    apply hnab
    have := (List.pairwise_iff_getElem).mp hp (l.indexOf b) (l.indexOf a) hib hia h
    rwa [List.getElem_indexOf hia, List.getElem_indexOf hib] at this

theorem eq_of_perm_of_pairwise_antisymmOn {α : Type} {r : α → α → Prop}
    {l₁ l₂ : List α} (hp : l₁.Perm l₂) (hs₁ : l₁.Pairwise r) (hs₂ : l₂.Pairwise r)
    (hanti : ∀ a ∈ l₁, ∀ b ∈ l₁, r a b → r b a → a = b) : l₁ = l₂ := by
  induction l₁ generalizing l₂ with
  | nil => exact (hp.nil_eq).symm ▸ rfl
  | cons a t ih =>
    cases l₂ with
    | nil => exact absurd hp.symm (by simp)
    | cons b t₂ =>
      by_cases hab : a = b
      · subst hab
        have hp' : t.Perm t₂ := hp.cons_inv
        have := ih hp' (List.pairwise_cons.mp hs₁).2 (List.pairwise_cons.mp hs₂).2
          (fun x hx y hy hxy hyx =>
            hanti x (List.mem_cons_of_mem a hx) y (List.mem_cons_of_mem a hy) hxy hyx)
        rw [this]
      · exfalso
        have hbmem : b ∈ a :: t := hp.mem_iff.mpr (List.mem_cons_self b t₂)
        have hamem : a ∈ b :: t₂ := hp.mem_iff.mp (List.mem_cons_self a t)
        have hb' : b ∈ t := by
          rcases List.mem_cons.mp hbmem with h | h
          · exact absurd h.symm hab
          · exact h
        have ha' : a ∈ t₂ := by
          rcases List.mem_cons.mp hamem with h | h
          · exact absurd h hab
          · exact h
        have h₁ : r a b := (List.pairwise_cons.mp hs₁).1 b hb'
        have h₂ : r b a := (List.pairwise_cons.mp hs₂).1 a ha'
        exact hab (hanti a (List.mem_cons_self a t) b hbmem h₁ h₂)

/-!
Layout lemmas: the sorted node list, the groups, the row list, and the
final position map.
-/

theorem mem_sortedNodes {l : List RoadmapNode} {n : RoadmapNode} :
    n ∈ sortedNodes l ↔ n ∈ l :=
  List.mem_insertionSort nodeLe

theorem sortedNodes_perm (l : List RoadmapNode) : (sortedNodes l).Perm l :=
  List.perm_insertionSort nodeLe l

theorem sortedNodes_pairwise (l : List RoadmapNode) :
    (sortedNodes l).Pairwise nodeLe := by
  have : IsTotal RoadmapNode nodeLe := ⟨nodeLe_total⟩
  have : IsTrans RoadmapNode nodeLe := ⟨fun a b c => nodeLe_trans⟩
  exact List.sorted_insertionSort nodeLe l

theorem mem_groupOf {l : List RoadmapNode} {p : Nat × Nat} {n : RoadmapNode} :
    n ∈ groupOf l p ↔ n ∈ sortedNodes l ∧ nodeKey n = p := by
  simp [groupOf, List.mem_filter]

theorem groupOf_pairwise (l : List RoadmapNode) (p : Nat × Nat) :
    (groupOf l p).Pairwise nodeLe :=
  (sortedNodes_pairwise l).filter _

theorem allYearSemPairs_pairwise (l : List RoadmapNode) :
    (allYearSemPairs l).Pairwise pairLe := by
  have : IsTotal (Nat × Nat) pairLe := ⟨pairLe_total⟩
  have : IsTrans (Nat × Nat) pairLe := ⟨fun a b c => pairLe_trans⟩
  exact List.sorted_insertionSort pairLe _

theorem allYearSemPairs_nodup (l : List RoadmapNode) :
    (allYearSemPairs l).Nodup :=
  ((List.perm_insertionSort pairLe _).symm).nodup
    (List.nodup_dedup ((sortedNodes l).map nodeKey))

theorem mem_allYearSemPairs {l : List RoadmapNode} {p : Nat × Nat} :
    p ∈ allYearSemPairs l ↔ ∃ n ∈ sortedNodes l, nodeKey n = p := by
  simp [allYearSemPairs, List.mem_insertionSort, List.mem_dedup, List.mem_map]

theorem snd_mem_of_mem_enumFrom {α : Type} {l : List α} {x : Nat × α} {n : Nat}
    (h : x ∈ l.enumFrom n) : x.2 ∈ l := by
  induction l generalizing n with
  | nil => cases h
  | cons hd t ih =>
    rw [List.enumFrom_cons] at h
    rcases List.mem_cons.mp h with he | hm
    · rw [he]
      exact List.mem_cons_self hd t
    · exact List.mem_cons_of_mem hd (ih hm)

theorem snd_mem_of_mem_enum {α : Type} {l : List α} {x : Nat × α}
    (h : x ∈ l.enum) : x.2 ∈ l :=
  snd_mem_of_mem_enumFrom (by simpa [List.enum] using h)

theorem sortedNodes_id_pairwise {l : List RoadmapNode}
    (hids : l.Pairwise (fun a b => a.id ≠ b.id)) :
    (sortedNodes l).Pairwise (fun a b => a.id ≠ b.id) :=
  ((sortedNodes_perm l).pairwise_iff (fun h => Ne.symm h)).mpr hids

theorem layoutWrites_keys_pairwise {l : List RoadmapNode}
    (hids : l.Pairwise (fun a b => a.id ≠ b.id)) :
    (layoutWrites l).Pairwise (fun w w' => w.1 ≠ w'.1) := by
  have hsp := sortedNodes_id_pairwise hids
  unfold layoutWrites
  rw [List.pairwise_flatMap]
  constructor
  · intro rp _
    rw [List.pairwise_map]
    have hgp : (groupOf l rp.2).Pairwise (fun a b => a.id ≠ b.id) :=
      hsp.filter _
    exact (pairwise_enum hgp).imp (fun h => h)
  · have hnd : (allYearSemPairs l).enum.Pairwise (fun a b => a.2 ≠ b.2) :=
      pairwise_enum (allYearSemPairs_nodup l)
    refine hnd.imp ?_
    intro rp rq hne x hx y hy
    rcases List.mem_map.mp hx with ⟨cn, hcn, hxe⟩
    rcases List.mem_map.mp hy with ⟨cm, hcm, hye⟩
    have hmem1 : cn.2 ∈ groupOf l rp.2 := snd_mem_of_mem_enum hcn
    have hmem2 : cm.2 ∈ groupOf l rq.2 := snd_mem_of_mem_enum hcm
    rw [← hxe, ← hye]
    intro hid
    have h1 := mem_groupOf.mp hmem1
    have h2 := mem_groupOf.mp hmem2
    have : cn.2 = cm.2 :=
      @eq_of_key_eq_of_pairwise _ _ RoadmapNode.id _ hsp _ _ h1.1 h2.1 hid
    apply hne
    rw [← h1.2, ← h2.2, this]

theorem nodePositions_eq_of_mem {l : List RoadmapNode}
    (hids : l.Pairwise (fun a b => a.id ≠ b.id)) {n : RoadmapNode} (hn : n ∈ l) :
    nodePositions l n.id =
      some (100 + rankIn (groupOf l (nodeKey n)) n * 180,
            100 + rankIn (allYearSemPairs l) (nodeKey n) * 120) := by
  have hs : n ∈ sortedNodes l := mem_sortedNodes.mpr hn
  have hg : n ∈ groupOf l (nodeKey n) := mem_groupOf.mpr ⟨hs, rfl⟩
  have hpmem : nodeKey n ∈ allYearSemPairs l := mem_allYearSemPairs.mpr ⟨n, hs, rfl⟩
  have hrp : (rankIn (allYearSemPairs l) (nodeKey n), nodeKey n) ∈
      (allYearSemPairs l).enum := indexOf_mem_enum hpmem
  have hcn : (rankIn (groupOf l (nodeKey n)) n, n) ∈
      (groupOf l (nodeKey n)).enum := indexOf_mem_enum hg
  have hw : (n.id, (100 + rankIn (groupOf l (nodeKey n)) n * 180,
      100 + rankIn (allYearSemPairs l) (nodeKey n) * 120)) ∈ layoutWrites l := by
    unfold layoutWrites
    rw [List.mem_flatMap]
    exact ⟨(rankIn (allYearSemPairs l) (nodeKey n), nodeKey n), hrp,
      List.mem_map.mpr ⟨(rankIn (groupOf l (nodeKey n)) n, n), hcn, rfl⟩⟩
  have hkeys := layoutWrites_keys_pairwise hids
  have hkeysrev : (layoutWrites l).reverse.Pairwise (fun w w' => w.1 ≠ w'.1) :=
    List.pairwise_reverse.mpr (hkeys.imp fun h => Ne.symm h)
  have hwrev := List.mem_reverse.mpr hw
  have hfind' : (layoutWrites l).reverse.find? (fun p => p.1 == n.id) =
      some (n.id, (100 + rankIn (groupOf l (nodeKey n)) n * 180,
        100 + rankIn (allYearSemPairs l) (nodeKey n) * 120)) :=
    find?_key_unique hkeysrev hwrev
  unfold nodePositions
  rw [foldlOverwrite_eq, hfind']

theorem row_lt_row {l : List RoadmapNode} {m n : RoadmapNode}
    (hm : m ∈ l) (hn : n ∈ l) (hlt : pairLt (nodeKey m) (nodeKey n)) :
    rankIn (allYearSemPairs l) (nodeKey m) <
      rankIn (allYearSemPairs l) (nodeKey n) :=
  indexOf_lt_of_rel (allYearSemPairs_pairwise l)
    (mem_allYearSemPairs.mpr ⟨m, mem_sortedNodes.mpr hm, rfl⟩)
    (mem_allYearSemPairs.mpr ⟨n, mem_sortedNodes.mpr hn, rfl⟩)
    (pairLt_not_le hlt) (pairLt_ne hlt)

theorem col_lt_col {l : List RoadmapNode} {m n : RoadmapNode}
    (hm : m ∈ l) (hn : n ∈ l) (hkey : nodeKey m = nodeKey n)
    (hname : nameLeB n.name.data m.name.data = false) :
    rankIn (groupOf l (nodeKey m)) m < rankIn (groupOf l (nodeKey m)) n := by
  have hyear : m.year = n.year := by
    have := congrArg Prod.fst hkey
    simpa [nodeKey] using this
  have hsem : m.semester = n.semester := by
    have := congrArg Prod.snd hkey
    simpa [nodeKey] using this
  apply indexOf_lt_of_rel (groupOf_pairwise l (nodeKey m))
  · exact mem_groupOf.mpr ⟨mem_sortedNodes.mpr hm, rfl⟩
  · exact mem_groupOf.mpr ⟨mem_sortedNodes.mpr hn, hkey.symm⟩
  · intro hc
    unfold nodeLe at hc
    rcases hc with h | ⟨e, h⟩
    · omega
    · rcases h with h | ⟨f, h⟩
      · omega
      · rw [hname] at h
        cases h
  · intro he
    rw [he, nameLeB_refl] at hname
    cases hname

/-- C2 (amended): for every roadmap whose node ids are pairwise distinct,
the layout assigns each node the position `x = 100 + column * 180`,
`y = 100 + row * 120`, where `row` is the rank of the node's
`(year, semester)` group among the distinct groups ordered by year then
semester ascending and `column` is the node's rank within its group; every
node of an earlier `(year, semester)` group receives a strictly smaller `y`
than every node of a later group; and within one group a node whose name
strictly precedes another's receives a strictly smaller `x`.  (The
distinct-id proviso is forced: `nodePositions` is keyed by node id and a
later write overwrites an earlier one, see the counterexample.) -/
theorem claim_C2_layout_grid (nodes : List RoadmapNode)
    (hids : nodes.Pairwise (fun a b => a.id ≠ b.id)) :
    (∀ n ∈ nodes,
       nodePositions nodes n.id =
         some (100 + rankIn (groupOf nodes (nodeKey n)) n * 180,
               100 + rankIn (allYearSemPairs nodes) (nodeKey n) * 120))
    ∧ (∀ m ∈ nodes, ∀ n ∈ nodes, pairLt (nodeKey m) (nodeKey n) →
        ∀ pm pn : Nat × Nat, nodePositions nodes m.id = some pm →
          nodePositions nodes n.id = some pn → pm.2 < pn.2)
    ∧ (∀ m ∈ nodes, ∀ n ∈ nodes, nodeKey m = nodeKey n →
        nameLeB n.name.data m.name.data = false →
        ∀ pm pn : Nat × Nat, nodePositions nodes m.id = some pm →
          nodePositions nodes n.id = some pn → pm.1 < pn.1) := by
  refine ⟨fun n hn => nodePositions_eq_of_mem hids hn, ?_, ?_⟩
  · intro m hm n hn hlt pm pn hpm hpn
    rw [nodePositions_eq_of_mem hids hm] at hpm
    rw [nodePositions_eq_of_mem hids hn] at hpn
    have hr := row_lt_row hm hn hlt
    have : pm.2 = 100 + rankIn (allYearSemPairs nodes) (nodeKey m) * 120 := by
      rw [← Option.some.inj hpm]
    have h2 : pn.2 = 100 + rankIn (allYearSemPairs nodes) (nodeKey n) * 120 := by
      rw [← Option.some.inj hpn]
    omega
  · intro m hm n hn hkey hname pm pn hpm hpn
    rw [nodePositions_eq_of_mem hids hm] at hpm
    rw [nodePositions_eq_of_mem hids hn] at hpn
    have hc := col_lt_col hm hn hkey hname
    have h1 : pm.1 = 100 + rankIn (groupOf nodes (nodeKey m)) m * 180 := by
      rw [← Option.some.inj hpm]
    have h2 : pn.1 = 100 + rankIn (groupOf nodes (nodeKey n)) n * 180 := by
      rw [← Option.some.inj hpn]
    rw [← hkey] at h2
    omega

/-- Witness: a three-node roadmap over two `(year, semester)` groups, with
the positions produced by `claim_C2_layout_grid` evaluated concretely. -/
theorem claim_C2_witness :
    nodePositions c2WitnessNodes "a" = some (280, 100) ∧
    nodePositions c2WitnessNodes "b" = some (100, 100) ∧
    nodePositions c2WitnessNodes "c" = some (100, 220) := by
  have h := claim_C2_layout_grid c2WitnessNodes (by decide)
  refine ⟨?_, ?_, ?_⟩
  · have hx := h.1 nodeY1B (by decide)
    have e1 : rankIn (groupOf c2WitnessNodes (nodeKey nodeY1B)) nodeY1B = 1 := by decide
    have e2 : rankIn (allYearSemPairs c2WitnessNodes) (nodeKey nodeY1B) = 0 := by decide
    rw [e1, e2] at hx
    exact hx
  · have hx := h.1 nodeY1A (by decide)
    have e1 : rankIn (groupOf c2WitnessNodes (nodeKey nodeY1A)) nodeY1A = 0 := by decide
    have e2 : rankIn (allYearSemPairs c2WitnessNodes) (nodeKey nodeY1A) = 0 := by decide
    rw [e1, e2] at hx
    exact hx
  · have hx := h.1 nodeY2C (by decide)
    have e1 : rankIn (groupOf c2WitnessNodes (nodeKey nodeY2C)) nodeY2C = 0 := by decide
    have e2 : rankIn (allYearSemPairs c2WitnessNodes) (nodeKey nodeY2C) = 1 := by decide
    rw [e1, e2] at hx
    exact hx

/-- Counterexample to C2 as stated: two nodes share the id `x` across two
`(year, semester)` groups; the later write overwrites the earlier one, so
the year-1 node's looked-up position equals the year-2 node's (`y = 220` for
both, instead of the claimed strictly smaller `y`, and instead of the
claimed formula `y = 100 + 0 * 120` for its row of rank `0`). -/
theorem claim_C2_counterexample :
    c2CexNode1 ∈ c2CexNodes ∧ c2CexNode2 ∈ c2CexNodes ∧
    pairLt (nodeKey c2CexNode1) (nodeKey c2CexNode2) ∧
    rankIn (allYearSemPairs c2CexNodes) (nodeKey c2CexNode1) = 0 ∧
    nodePositions c2CexNodes c2CexNode1.id = some (100, 220) ∧
    nodePositions c2CexNodes c2CexNode2.id = some (100, 220) := by
  exact ⟨by decide, by decide, by decide, by decide, by decide, by decide⟩

theorem enumFrom_map {α β : Type} (f : α → β) (l : List α) (n : Nat) :
    (l.map f).enumFrom n = (l.enumFrom n).map (fun p => (p.1, f p.2)) := by
  induction l generalizing n with
  | nil => rfl
  | cons hd t ih => simp [List.enumFrom_cons, ih]

theorem enum_map' {α β : Type} (f : α → β) (l : List α) :
    (l.map f).enum = l.enum.map (fun p => (p.1, f p.2)) := by
  simp [List.enum, enumFrom_map]

theorem layoutWrites_eq_writesFromProj (l : List RoadmapNode) :
    layoutWrites l = writesFromProj ((sortedNodes l).map projNode) := by
  unfold layoutWrites writesFromProj allYearSemPairs groupOf
  have hkeys : ((sortedNodes l).map projNode).map projKey =
      (sortedNodes l).map nodeKey := by
    rw [List.map_map]
    rfl
  rw [hkeys]
  congr 1
  funext rp
  have hfil : ((sortedNodes l).map projNode).filter
      (fun q => decide (projKey q = rp.2)) =
      ((sortedNodes l).filter (fun n => decide (nodeKey n = rp.2))).map projNode := by
    rw [List.filter_map]
    rfl
  rw [hfil, enum_map', List.map_map]
  rfl

theorem nodePositions_eq_of_map_proj {l₁ l₂ : List RoadmapNode}
    (h : l₁.map projNode = l₂.map projNode) :
    nodePositions l₁ = nodePositions l₂ := by
  have hs : (sortedNodes l₁).map projNode = (sortedNodes l₂).map projNode := by
    unfold sortedNodes
    rw [@List.map_insertionSort _ _ nodeLe projLe _ _ projNode l₁
        (fun a _ b _ => Iff.rfl),
      @List.map_insertionSort _ _ nodeLe projLe _ _ projNode l₂
        (fun a _ b _ => Iff.rfl), h]
  have hw : layoutWrites l₁ = layoutWrites l₂ := by
    rw [layoutWrites_eq_writesFromProj, layoutWrites_eq_writesFromProj, hs]
  unfold nodePositions
  rw [hw]

theorem sortedNodes_eq_of_perm {l₁ l₂ : List RoadmapNode} (hp : l₁.Perm l₂)
    (htri : l₁.Pairwise (fun a b => sortTriple a ≠ sortTriple b)) :
    sortedNodes l₁ = sortedNodes l₂ := by
  have hsp : (sortedNodes l₁).Pairwise (fun a b => sortTriple a ≠ sortTriple b) :=
    ((sortedNodes_perm l₁).pairwise_iff (fun h he => h he.symm)).mpr htri
  apply eq_of_perm_of_pairwise_antisymmOn
    ((sortedNodes_perm l₁).trans (hp.trans (sortedNodes_perm l₂).symm))
    (sortedNodes_pairwise l₁) (sortedNodes_pairwise l₂)
  intro a ha b hb hab hba
  have htr : sortTriple a = sortTriple b := by
    have hy : a.year = b.year := by
      unfold nodeLe at hab hba
      rcases hab with h1 | ⟨e1, _⟩ <;> rcases hba with h2 | ⟨e2, _⟩ <;> omega
    have hs : a.semester = b.semester := by
      unfold nodeLe at hab hba
      rcases hab with h1 | ⟨e1, h1⟩
      · omega
      · rcases hba with h2 | ⟨e2, h2⟩
        · omega
        · rcases h1 with h1 | ⟨f1, _⟩ <;> rcases h2 with h2 | ⟨f2, _⟩ <;> omega
    have hn1 : nameLeB a.name.data b.name.data = true := by
      unfold nodeLe at hab
      rcases hab with h1 | ⟨e1, h1⟩
      · omega
      · rcases h1 with h1 | ⟨f1, h1⟩
        · omega
        · exact h1
    have hn2 : nameLeB b.name.data a.name.data = true := by
      unfold nodeLe at hba
      rcases hba with h2 | ⟨e2, h2⟩
      · omega
      · rcases h2 with h2 | ⟨f2, h2⟩
        · omega
        · exact h2
    have hname : a.name = b.name := congrArg String.mk (nameLeB_antisymm hn1 hn2)
    unfold sortTriple
    rw [hy, hs, hname]
  exact @eq_of_key_eq_of_pairwise _ _ sortTriple _ hsp _ _ ha hb htr

theorem nodePositions_eq_of_perm {l₁ l₂ : List RoadmapNode} (hp : l₁.Perm l₂)
    (htri : l₁.Pairwise (fun a b => sortTriple a ≠ sortTriple b)) :
    nodePositions l₁ = nodePositions l₂ := by
  have hs := sortedNodes_eq_of_perm hp htri
  unfold nodePositions layoutWrites allYearSemPairs groupOf
  rw [hs]

/-- C6 (amended: order-independence requires that no two nodes share the
same `(year, semester, name)` sort triple — the counterexample
`claim_C6_counterexample` shows it fails on ties, because the stable sort
keeps tied nodes in input order and the column assignment follows that
order).  The layout is a pure function of the node set: the position map
depends only on each node's `id`, `name`, `year` and `semester` (in
particular any `x`/`y` present on input nodes are ignored), and for
roadmaps with pairwise-distinct sort triples it is independent of the order
in which nodes appear in the input list.  (Determinism itself — computing
the layout twice yields the same mapping — is definitional in this
embedding: the layout is a function.) -/
theorem claim_C6_layout_pure :
    (∀ l₁ l₂ : List RoadmapNode, l₁.map projNode = l₂.map projNode →
        nodePositions l₁ = nodePositions l₂)
    ∧ (∀ l₁ l₂ : List RoadmapNode, l₁.Perm l₂ →
        l₁.Pairwise (fun a b => sortTriple a ≠ sortTriple b) →
        nodePositions l₁ = nodePositions l₂) :=
  ⟨fun _ _ h => nodePositions_eq_of_map_proj h,
   fun _ _ hp htri => nodePositions_eq_of_perm hp htri⟩

/-- Witness: changing a node's input `x`/`y` (and other non-layout fields)
does not change its position, and permuting a tie-free roadmap does not
change its position map. -/
theorem claim_C6_witness :
    nodePositions [c6NodeAShifted] "a" = some (100, 100) ∧
    nodePositions [nodeY1B, nodeY1A] "a" = nodePositions [nodeY1A, nodeY1B] "a" := by
  constructor
  · have h := claim_C6_layout_pure.1 [c6NodeAShifted] [c6NodeA] (by decide)
    rw [congrFun h "a"]
    decide
  · have h := claim_C6_layout_pure.2 [nodeY1B, nodeY1A] [nodeY1A, nodeY1B]
      (List.Perm.swap nodeY1A nodeY1B []) (by decide)
    exact congrFun h "a"

/-- Counterexample to C6 as stated: two nodes tie on `(year, semester,
name)`; swapping their input order changes the position assigned to the id
`a` from `(100, 100)` to `(280, 100)`, so the layout is not independent of
input order for arbitrary roadmaps. -/
theorem claim_C6_counterexample :
    ([c6NodeA, c6NodeB] : List RoadmapNode).Perm [c6NodeB, c6NodeA] ∧
    nodePositions [c6NodeA, c6NodeB] "a" = some (100, 100) ∧
    nodePositions [c6NodeB, c6NodeA] "a" = some (280, 100) :=
  ⟨List.Perm.swap c6NodeB c6NodeA [], by decide, by decide⟩

/-- C1 (amended): the interpreter tries the whole-text parse, then the
fenced-code-block parse, then the first-`{`-to-last-`}` span parse, with
first success winning — except that when a fenced block is found but its
captured group does not parse as JSON, the invalid-ai-response failure is
reported immediately and the third strategy is not attempted (see the
counterexample), and the third strategy is reached only when no fenced
block was found; only when every attempted strategy fails is the parse
failure reported. -/
theorem claim_C1_parse_order (t : List Char) :
    (∀ j, jsonParseL t = some j → parseJSONResponse t = Except.ok j)
    ∧ (jsonParseL t = none → ∀ g, fencedMatch t = some g →
        parseJSONResponse t =
          (match jsonParseL g with
           | some j => Except.ok j
           | none => Except.error AiParseError.invalidJson))
    ∧ (jsonParseL t = none → fencedMatch t = none → ∀ g, objectMatch t = some g →
        parseJSONResponse t =
          (match jsonParseL g with
           | some j => Except.ok j
           | none => Except.error AiParseError.invalidJson))
    ∧ (jsonParseL t = none → fencedMatch t = none → objectMatch t = none →
        parseJSONResponse t = Except.error AiParseError.noJsonFound) := by
  refine ⟨?_, ?_, ?_, ?_⟩
  · intro j h
    unfold parseJSONResponse
    rw [h]
  · intro h1 g h2
    unfold parseJSONResponse
    rw [h1, h2]
  · intro h1 h2 g h3
    unfold parseJSONResponse
    rw [h1, h2, h3]
  · intro h1 h2 h3
    unfold parseJSONResponse
    rw [h1, h2, h3]

/-- Witness: a text whose only JSON lies in the greedy `{...}` span is
recovered by the third strategy. -/
theorem claim_C1_witness :
    parseJSONResponse c1WitnessText.data = Except.ok c1WitnessJson := by
  have h := (claim_C1_parse_order c1WitnessText.data).2.2.1 rfl rfl
    ("\x7b\"flag\":true\x7d".data) rfl
  rw [h]
  rfl

/-- Counterexample to C1 as stated: on this text the whole-text parse
fails, the fenced-block attempt fails (its captured group is `{x}`), and the
first balanced `{...}` span — also the substring from the first `{` to the
last `}`, i.e. exactly what the third strategy would try — parses
successfully; yet the interpreter reports the invalid-ai-response failure
without attempting the third strategy. -/
theorem claim_C1_counterexample :
    jsonParse c1CexText = none ∧
    fencedMatch c1CexText.data = some "\x7bx\x7d".data ∧
    jsonParse c1CexSpan = some c1CexJson ∧
    objectMatch c1CexText.data = some c1CexSpan.data ∧
    parseJSONResponse c1CexText.data = Except.error AiParseError.invalidJson :=
  ⟨rfl, rfl, rfl, rfl, rfl⟩

/-- C5: for every text `t` that is a valid JSON serialization of a roadmap
`r` — that is, `JSON.parse` on `t` recovers exactly `r`'s JSON encoding —
the interpreter succeeds on `t` with a value deep-equal to `r`'s encoding
(the round trip is the identity). -/
theorem claim_C5_roundtrip (t : String) (r : GeneratedRoadmap)
    (h : jsonParse t = some (roadmapToJson r)) :
    parseJSONResponse t.data = Except.ok (roadmapToJson r) := by
  unfold jsonParse at h
  unfold parseJSONResponse
  rw [h]

set_option maxRecDepth 100000 in
/-- Witness: a concrete serialized roadmap round-trips. -/
theorem claim_C5_witness :
    parseJSONResponse c5Text.data = Except.ok (roadmapToJson c5Roadmap) :=
  claim_C5_roundtrip c5Text c5Roadmap rfl

/-- C7: an AI reply whose text parses as JSON but whose parsed value lacks
a `nodes` field holding an array fails the shape check: the pipeline
surfaces the invalid-roadmap error and the result never reaches the
displaying state. -/
theorem claim_C7_shape_validation (t : List Char) (j : Json)
    (hp : jsonParseL t = some j)
    (hn : (match getField j "nodes" with
           | some v => isJsonArray v
           | none => false) = false) :
    generateRoadmapUI t =
      UiOutcome.errorShown "Invalid roadmap data received from AI"
    ∧ ∀ rj, generateRoadmapUI t ≠ UiOutcome.displaying rj := by
  have hok : parseJSONResponse t = Except.ok j := by
    unfold parseJSONResponse
    rw [hp]
  have hshape : roadmapShapeOk j = false := by
    unfold roadmapShapeOk
    cases hf : getField j "nodes" with
    | none => simp
    | some v =>
      rw [hf] at hn
      have hn' : isJsonArray v = false := hn
      simp [hn']
  refine ⟨?_, ?_⟩ <;> simp [generateRoadmapUI, hok, hshape]

/-- Witness: the reply `'{"nodes": "not-a-list"}'` parses as JSON but is
rejected by the shape check. -/
theorem claim_C7_witness :
    generateRoadmapUI c7Text.data =
      UiOutcome.errorShown "Invalid roadmap data received from AI" :=
  (claim_C7_shape_validation c7Text.data c7Json rfl rfl).1

/-- C8: a `connects` entry whose target id is absent among the current
nodes produces no rendered edge (its map step yields the `null`
placeholder, silently skipped) and raises no error; every edge in the
rendered edge set has a target resolving to a current node. -/
theorem claim_C8_dangling_edges (nodes : List RoadmapNode) (tid : String)
    (hmiss : ∀ t ∈ nodes, t.id ≠ tid) :
    (∀ e ∈ renderedEdges nodes, e.target ≠ tid)
    ∧ (∀ e ∈ renderedEdges nodes, ∃ t ∈ nodes, e.target = t.id) := by
  have hmem : ∀ e ∈ renderedEdges nodes, ∃ t ∈ nodes, e.target = t.id := by
    intro e he
    have hsome : (some e : Option RenderedEdge) ∈ renderConnections nodes :=
      List.reduceOption_mem_iff.mp he
    unfold renderConnections at hsome
    rw [List.mem_flatten] at hsome
    rcases hsome with ⟨inner, hinner, hein⟩
    rcases List.mem_map.mp hinner with ⟨node, _, hie⟩
    rw [← hie] at hein
    rcases List.mem_map.mp hein with ⟨tgtId, _, heq⟩
    cases hfind : (sortedNodes nodes).find? (fun n => n.id == tgtId) with
    | none =>
      rw [hfind] at heq
      cases heq
    | some tnode =>
      rw [hfind] at heq
      have he' := Option.some.inj heq
      have htmem : tnode ∈ sortedNodes nodes := List.mem_of_find?_eq_some hfind
      refine ⟨tnode, mem_sortedNodes.mp htmem, ?_⟩
      rw [← he']
  refine ⟨?_, hmem⟩
  intro e he htid
  rcases hmem e he with ⟨t, ht, het⟩
  exact hmiss t ht (by rw [← het, htid])

/-- Witness: in a roadmap whose first node connects to the missing id
`ghost` and the existing id `n2`, the rendered edge set contains exactly
the resolvable edge and nothing targeting `ghost`. -/
theorem claim_C8_witness :
    (∀ e ∈ renderedEdges c8Nodes, e.target ≠ "ghost")
    ∧ renderedEdges c8Nodes =
        [⟨"n1", "n2", 160, 120, 160, 240⟩] :=
  ⟨(claim_C8_dangling_edges c8Nodes "ghost" (by decide)).1, by decide⟩

/-!
Catalog filter lemmas for `getSubjectsByCareerRelevance`.
-/

theorem mem_getSubjectsByCareerRelevance {subs : List Subject} {occ : String}
    {th : ℚ} {s : Subject} :
    s ∈ getSubjectsByCareerRelevance subs occ th ↔
      s ∈ subs ∧ keepByRelevance occ th s = true := by
  unfold getSubjectsByCareerRelevance
  rw [List.mem_insertionSort, List.mem_filter]

theorem keepByRelevance_iff {occ : String} {th : ℚ} {s : Subject} :
    keepByRelevance occ th s = true ↔
      ∃ r, relevanceOf s (toLowerAscii occ) = some r ∧ r ≠ 0 ∧ th ≤ r := by
  unfold keepByRelevance
  cases h : relevanceOf s (toLowerAscii occ) with
  | none => simp
  | some r =>
    by_cases hr : r = 0
    · simp [hr]
    · simp [hr]

theorem getSubjectsByCareerRelevance_sorted (subs : List Subject) (occ : String)
    (th : ℚ) :
    (getSubjectsByCareerRelevance subs occ th).Pairwise
      (relDesc (toLowerAscii occ)) := by
  unfold getSubjectsByCareerRelevance
  have : IsTotal Subject (relDesc (toLowerAscii occ)) := ⟨fun a b => le_total _ _⟩
  have : IsTrans Subject (relDesc (toLowerAscii occ)) :=
    ⟨fun a b c hab hbc => le_trans hbc hab⟩
  exact List.sorted_insertionSort _ _

theorem getSubjectsByCareerRelevance_stable {subs : List Subject} {occ : String}
    {th : ℚ} {a b : Subject} (hsub : [a, b].Sublist subs)
    (ha : keepByRelevance occ th a = true) (hb : keepByRelevance occ th b = true)
    (hle : relDesc (toLowerAscii occ) a b) :
    [a, b].Sublist (getSubjectsByCareerRelevance subs occ th) := by
  unfold getSubjectsByCareerRelevance
  apply List.pair_sublist_insertionSort hle
  have hstep := hsub.filter (keepByRelevance occ th)
  have h2 : List.filter (keepByRelevance occ th) [a, b] = [a, b] := by
    simp [ha, hb]
  rwa [h2] at hstep

/-- C4 (amended: a present score of `0` is excluded even when the threshold
is `0` — `relevance && relevance >= threshold` makes a zero score falsy, see
the counterexample): for every occupation string and threshold, the filter
keeps exactly the subjects whose `career_relevance` entry under
`occupation.toLowerCase()` is present, nonzero, and at least the threshold;
a subject missing that entry is excluded rather than treated as having
score zero. -/
theorem claim_C4_filter_semantics (subs : List Subject) (occ : String) (th : ℚ)
    (s : Subject) :
    s ∈ getSubjectsByCareerRelevance subs occ th ↔
      s ∈ subs ∧ ∃ r, relevanceOf s (toLowerAscii occ) = some r ∧ r ≠ 0 ∧ th ≤ r := by
  rw [mem_getSubjectsByCareerRelevance, keepByRelevance_iff]

/-- Witness: a subject whose present score equals the (nonzero) threshold
is kept. -/
theorem claim_C4_witness :
    c4SubjectBoundary ∈
      getSubjectsByCareerRelevance [c4Subject, c4SubjectBoundary] "k" (mkRat 1 2) :=
  (claim_C4_filter_semantics [c4Subject, c4SubjectBoundary] "k" (mkRat 1 2)
    c4SubjectBoundary).mpr
    ⟨by decide, mkRat 1 2, rfl, by decide, le_refl _⟩

/-- Counterexample to C4 as stated: a subject whose entry for the key `k`
is present and equal to `0` satisfies `score ≥ threshold` at threshold `0`,
yet the filter excludes it. -/
theorem claim_C4_counterexample :
    relevanceOf c4Subject (toLowerAscii "k") = some (mkRat 0 1) ∧
    mkRat 0 1 = 0 ∧ ((0 : ℚ) ≤ 0) ∧
    getSubjectsByCareerRelevance [c4Subject] "k" 0 = [] :=
  ⟨rfl, by decide, le_refl 0, rfl⟩

/-- C3 (amended: `occupation.toLowerCase()` maps `"Software Engineer"` to
the key `"software engineer"` — with a space — not the underscore key
`"software_engineer"` named by the claim and used by the enrichment
prompts; see the counterexample): `filterByCareerRelevance` with occupation
`"Software Engineer"` and threshold `0.7` returns exactly the subjects with
a defined score `≥ 0.7` under the key `"software engineer"` (such scores
are nonzero, so truthiness does not interfere), sorted descending by that
score, with tied subjects kept in original catalog order (stability). -/
theorem claim_C3_software_engineer (subs : List Subject) :
    (∀ s, s ∈ getSubjectsByCareerRelevance subs "Software Engineer" (7/10) ↔
        s ∈ subs ∧ ∃ r, relevanceOf s "software engineer" = some r ∧ 7/10 ≤ r)
    ∧ (getSubjectsByCareerRelevance subs "Software Engineer" (7/10)).Pairwise
        (fun a b => (relevanceOf b "software engineer").getD 0 ≤
          (relevanceOf a "software engineer").getD 0)
    ∧ (∀ a b, [a, b].Sublist subs →
        keepByRelevance "Software Engineer" (7/10) a = true →
        keepByRelevance "Software Engineer" (7/10) b = true →
        (relevanceOf b "software engineer").getD 0 ≤
          (relevanceOf a "software engineer").getD 0 →
        [a, b].Sublist (getSubjectsByCareerRelevance subs "Software Engineer" (7/10))) := by
  have hkey : toLowerAscii "Software Engineer" = "software engineer" := rfl
  refine ⟨?_, ?_, ?_⟩
  · intro s
    rw [mem_getSubjectsByCareerRelevance, keepByRelevance_iff, hkey]
    refine and_congr_right fun _ => exists_congr fun r => ?_
    constructor
    · rintro ⟨he, -, hle⟩
      exact ⟨he, hle⟩
    · rintro ⟨he, hle⟩
      refine ⟨he, ?_, hle⟩
      intro h0
      rw [h0] at hle
      norm_num at hle
  · have h := getSubjectsByCareerRelevance_sorted subs "Software Engineer" (7/10)
    rw [hkey] at h
    exact h.imp (fun hab => hab)
  · intro a b hsub ha hb hle
    refine getSubjectsByCareerRelevance_stable hsub ha hb ?_
    rw [hkey]
    exact hle

/-- Witness: in a concrete catalog the subject scored `0.8` is returned,
and the two subjects tied at `0.8` stay in catalog order. -/
theorem claim_C3_witness :
    c3SubjectMid ∈ getSubjectsByCareerRelevance c3Catalog "Software Engineer" (7/10)
    ∧ [c3SubjectMid, c3SubjectMid2].Sublist
        (getSubjectsByCareerRelevance c3Catalog "Software Engineer" (7/10)) := by
  have h := claim_C3_software_engineer c3Catalog
  have hv : (mkRat 4 5 : ℚ) = 4 / 5 := by norm_num [mkRat, Rat.normalize]
  have hle : (7 / 10 : ℚ) ≤ mkRat 4 5 := by
    rw [hv]
    norm_num
  constructor
  · exact (h.1 c3SubjectMid).mpr ⟨by decide, mkRat 4 5, rfl, hle⟩
  · refine h.2.2 c3SubjectMid c3SubjectMid2 (by decide) ?_ ?_ (by decide)
    · exact keepByRelevance_iff.mpr ⟨mkRat 4 5, rfl, by decide, hle⟩
    · exact keepByRelevance_iff.mpr ⟨mkRat 4 5, rfl, by decide, hle⟩

/-- Counterexample to C3 as stated: a subject carrying the score `1` under
the underscore key `"software_engineer"` — the key the claim names and the
catalog enrichment produces — has a defined score `≥ 0.7` under that key,
yet the call returns the empty list, because the code looks the score up
under `"software engineer"` (the lowercased occupation, with a space). -/
theorem claim_C3_counterexample :
    relevanceOf c3Subject "software_engineer" = some (mkRat 1 1) ∧
    ((7 / 10 : ℚ) ≤ mkRat 1 1) ∧
    relevanceOf c3Subject (toLowerAscii "Software Engineer") = none ∧
    getSubjectsByCareerRelevance [c3Subject] "Software Engineer" (7 / 10) = [] := by
  refine ⟨rfl, ?_, rfl, rfl⟩
  have hv : (mkRat 1 1 : ℚ) = 1 := by norm_num [mkRat, Rat.normalize]
  rw [hv]
  norm_num

/-!
Enrichment lemmas.
-/

theorem enrich_eq_map (respond : Subject → Except Unit String)
    (l : List Subject) :
    enrichSubjectsWithCareerRelevance respond l = l.map (enrichOne respond) := by
  induction l with
  | nil => rfl
  | cons s rest ih => simp [enrichSubjectsWithCareerRelevance, ih]

theorem enrichOne_eq_of_fails {respond : Subject → Except Unit String}
    {s : Subject} (h : enrichFails respond s) : enrichOne respond s = s := by
  unfold enrichFails at h
  unfold enrichOne
  cases hr : respond s with
  | error e => simp [hr]
  | ok text =>
    simp only [hr] at h ⊢
    cases hp : parseJSONResponse text.data with
    | error e => simp [hp]
    | ok j =>
      simp only [hp] at h

theorem eraseEnrichment_enrichOne (respond : Subject → Except Unit String)
    (s : Subject) :
    eraseEnrichment (enrichOne respond s) = eraseEnrichment s := by
  unfold enrichOne
  cases hr : respond s with
  | error e => simp [hr]
  | ok text =>
    simp only [hr]
    cases hp : parseJSONResponse text.data with
    | error e => simp [hp]
    | ok parsed =>
      simp only [hp]
      rfl

/-- C9: when the round trip for the `i`-th subject fails (transport or
parse), the output at `i` is that subject's unmodified original record, and
every other position is still the enrichment of its own input subject — one
subject's failure never aborts or alters the enrichment of the others. -/
theorem claim_C9_enrichment_isolation (respond : Subject → Except Unit String)
    (subjects : List Subject) (i : Nat) (hi : i < subjects.length)
    (hfail : enrichFails respond (subjects.get ⟨i, hi⟩)) :
    (enrichSubjectsWithCareerRelevance respond subjects)[i]? =
      some (subjects.get ⟨i, hi⟩)
    ∧ ∀ j : Nat, (enrichSubjectsWithCareerRelevance respond subjects)[j]? =
        (subjects[j]?).map (enrichOne respond) := by
  constructor
  · rw [enrich_eq_map, List.getElem?_map]
    have hg : subjects[i]? = some (subjects.get ⟨i, hi⟩) :=
      List.getElem?_eq_getElem hi
    rw [hg]
    simp only [Option.map_some']
    exact congrArg some (enrichOne_eq_of_fails hfail)
  · intro j
    rw [enrich_eq_map, List.getElem?_map]

/-- Witness: with an oracle failing on subject `a` and succeeding on
subject `b`, the output keeps `a` unchanged and still enriches `b`. -/
theorem claim_C9_witness :
    (enrichSubjectsWithCareerRelevance c9Respond [c9SubjectA, c9SubjectB])[0]? =
      some c9SubjectA
    ∧ (enrichSubjectsWithCareerRelevance c9Respond [c9SubjectA, c9SubjectB])[1]? =
        some (enrichOne c9Respond c9SubjectB) := by
  have h := claim_C9_enrichment_isolation c9Respond [c9SubjectA, c9SubjectB] 0
    (by decide) (by trivial)
  exact ⟨h.1, h.2 1⟩

/-- C10: enrichment returns a list of the same length and order, and each
output subject agrees with its input subject on every field other than
`career_relevance` and `career_relevance_reason`, whether or not that
subject's round trip succeeded. -/
theorem claim_C10_enrichment_frame (respond : Subject → Except Unit String)
    (subjects : List Subject) :
    (enrichSubjectsWithCareerRelevance respond subjects).length = subjects.length
    ∧ ∀ j : Nat,
        ((enrichSubjectsWithCareerRelevance respond subjects)[j]?).map eraseEnrichment
          = (subjects[j]?).map eraseEnrichment := by
  constructor
  · rw [enrich_eq_map, List.length_map]
  · intro j
    rw [enrich_eq_map, List.getElem?_map]
    cases h : subjects[j]? with
    | none => rfl
    | some s => simp [eraseEnrichment_enrichOne]
